import Mathlib

/-!
# PRoot / CARE archive writer (`src/extension/care/archive.c`)

A shallow embedding of `slurp_suffix`, `parse_suffix`, `copy_self_exe`,
`new_archive`, `finalize_archive` and `archive`, followed by theorems about them.

Conventions of the embedding:

* a C string is the list of its characters before the terminating NUL;
* a pointer into a string is the offset from the start of the string;
* a function pointer or object pointer that may be `NULL` is an `Option`;
* calls into libarchive, libc and `notice` are recorded, in program order, in a
  trace of `Call`s; the values those calls return are read from a `World`;
* a loop that copies a file takes a bound `fuel` on its iterations and yields `none`
  when the bound is reached; `errno` is only modelled where the code reads it.
-/

namespace Care

/-! ## Constants from the system and libarchive headers -/

/-- Value of `ARCHIVE_OK` in `archive.h`. -/
def ARCHIVE_OK : Int := 0

/-- Value of `ARCHIVE_FORMAT_CPIO_POSIX` in `archive.h` (`ARCHIVE_FORMAT_CPIO | 1`). -/
def ARCHIVE_FORMAT_CPIO_POSIX : Int := 0x10001

/-- Value of `ARCHIVE_FORMAT_TAR_GNUTAR` in `archive.h` (`ARCHIVE_FORMAT_TAR | 4`). -/
def ARCHIVE_FORMAT_TAR_GNUTAR : Int := 0x30004

/-- Value of `AE_IFMT` in `archive_entry.h`: the file type bits of a mode. -/
def AE_IFMT : Nat := 0o170000

/-- Value of `AE_IFREG` in `archive_entry.h`. -/
def AE_IFREG : Nat := 0o100000

/-- Value of `AE_IFLNK` in `archive_entry.h`. -/
def AE_IFLNK : Nat := 0o120000

/-- Value of `PATH_MAX` in `linux/limits.h`. -/
def PATH_MAX : Int := 4096

/-- Value of `EACCES` in `errno.h`. -/
def EACCES : Int := 13

/-- Conversion of a signed value to `size_t` (64 bits). -/
def to_size_t (v : Int) : Nat := (v % 2 ^ 64).toNat

/-! ## Notices and the trace of external calls -/

/-- Severity argument of `notice`. -/
inductive Severity where
  | ERROR
  | WARNING
  deriving DecidableEq, Repr

/-- Origin argument of `notice`. -/
inductive Origin where
  | SYSTEM
  | INTERNAL
  | USER
  deriving DecidableEq, Repr

/-- The setters a `Format` may hold in `set_format`. -/
inductive FormatSetter where
  | archive_write_set_format_cpio
  | archive_write_set_format_gnutar
  deriving DecidableEq, Repr

/-- The setters a `Format` may hold in `add_filter`. -/
inductive FilterSetter where
  | archive_write_add_filter_gzip
  | archive_write_add_filter_lzop
  deriving DecidableEq, Repr

/-- One observable call made by the code, with the arguments that matter. -/
inductive Call where
  | notice (severity : Severity) (origin : Origin) (message : String)
  | talloc_zero
  | archive_write_new
  | set_format (setter : FormatSetter)
  | archive_entry_linkresolver_new
  | archive_entry_linkresolver_set_strategy (strategy : Int)
  | add_filter (setter : FilterSetter)
  | archive_write_set_options (options : String)
  | open_self_exe
  | open_destination
  | read_self_exe
  | write_destination (buffer : List Nat)
  | close_input
  | close_output
  | lseek
  | archive_write_open_fd (fd : Int)
  | archive_write_open_filename (output : List Char)
  | archive_entry_linkresolver_free
  | archive_write_close
  | archive_write_free
  | archive_entry_new
  | archive_entry_set_pathname (pathname : List Char)
  | archive_entry_copy_stat
  | archive_entry_linkify
  | readlink
  | archive_entry_set_symlink (target : List Char)
  | archive_write_header
  | open_path
  | read_path
  | archive_write_data (buffer : List Nat)
  | close_path
  | archive_entry_free
  deriving DecidableEq, Repr

/-! ## `Format`, `slurp_suffix`, `parse_suffix` -/

/-- The `Format` structure. -/
structure Format where
  set_format : Option FormatSetter
  add_filter : Option FilterSetter
  hardlink_resolver_strategy : Int
  options : Option String
  self_extractable : Bool
  deriving DecidableEq, Repr

/-- Result of `bzero(format, sizeof(Format))`. -/
def Format.zero : Format :=
  { set_format := none, add_filter := none, hardlink_resolver_strategy := 0,
    options := none, self_extractable := false }

/-- The suffix `.bin`. -/
def dot_bin : List Char := ['.', 'b', 'i', 'n']

/-- The suffix `.gz`. -/
def dot_gz : List Char := ['.', 'g', 'z']

/-- The suffix `.lzo`. -/
def dot_lzo : List Char := ['.', 'l', 'z', 'o']

/-- The suffix `.tgz`. -/
def dot_tgz : List Char := ['.', 't', 'g', 'z']

/-- The suffix `.tzo`. -/
def dot_tzo : List Char := ['.', 't', 'z', 'o']

/-- The suffix `.cpio`. -/
def dot_cpio : List Char := ['.', 'c', 'p', 'i', 'o']

/-- The suffix `.tar`. -/
def dot_tar : List Char := ['.', 't', 'a', 'r']

/-- The test `strncmp(a, b, n) != 0` on NUL-free character sequences. -/
def strncmp_ne_zero (a b : List Char) (n : Nat) : Bool :=
  a.take n != b.take n

/-- `slurp_suffix(string, &cursor, suffix)`: the returned flag and the new cursor. -/
def slurp_suffix (string : List Char) (cursor : Nat) (suffix : List Char) : Bool × Nat :=
  let length := suffix.length
  if cursor < length || strncmp_ne_zero (string.drop (cursor - length)) suffix length then
    (false, cursor)
  else
    (true, cursor - length)

/-- The local variables of `parse_suffix` that are live at a label, and the notices so far. -/
structure ParseState where
  format : Format
  cursor : Nat
  no_wrapper_found : Bool
  no_filter_found : Bool
  no_format_found : Bool
  trace : List Call
  deriving DecidableEq, Repr

/-- What `parse_suffix` leaves behind: `*format`, `*suffix_length` and the notices. -/
structure ParseResult where
  format : Format
  suffix_length : Nat
  trace : List Call
  deriving DecidableEq, Repr

/-- The call `notice(tracee, WARNING, USER, "unknown suffix, ...")`. -/
def unknown_suffix_notice : Call :=
  Call.notice Severity.WARNING Origin.USER "unknown suffix, assuming self-extractable format."

/-- The call `notice(tracee, WARNING, USER, "unknown format, ...")`. -/
def unknown_format_notice : Call :=
  Call.notice Severity.WARNING Origin.USER "unknown format, assuming cpio format."

/-- The code of `parse_suffix` from the label `end` on. -/
def parse_suffix_end (string : List Char) (s : ParseState) : ParseResult :=
  let s1 : ParseState :=
    if s.no_filter_found && s.no_format_found then
      { s with
        format :=
          { s.format with
            add_filter := some FilterSetter.archive_write_add_filter_lzop
            options := some "lzop:compression-level=1"
            set_format := some FormatSetter.archive_write_set_format_cpio
            hardlink_resolver_strategy := ARCHIVE_FORMAT_CPIO_POSIX
            self_extractable := true }
        trace := if s.no_wrapper_found then s.trace ++ [unknown_suffix_notice] else s.trace
        no_wrapper_found := false
        no_filter_found := false
        no_format_found := false }
    else s
  let s2 : ParseState :=
    if s1.no_format_found then
      { s1 with
        trace := s1.trace ++ [unknown_format_notice]
        format :=
          { s1.format with
            set_format := some FormatSetter.archive_write_set_format_cpio
            hardlink_resolver_strategy := ARCHIVE_FORMAT_CPIO_POSIX }
        no_format_found := false }
    else s1
  { format := s2.format, suffix_length := string.length - s2.cursor, trace := s2.trace }

/-- The code of `parse_suffix` from the label `parse_format` on. -/
def parse_suffix_parse_format (string : List Char) (s : ParseState) : ParseResult :=
  let r1 := slurp_suffix string s.cursor dot_cpio
  if r1.1 then
    parse_suffix_end string
      { s with
        cursor := r1.2
        format :=
          { s.format with
            set_format := some FormatSetter.archive_write_set_format_cpio
            hardlink_resolver_strategy := ARCHIVE_FORMAT_CPIO_POSIX } }
  else
    let r2 := slurp_suffix string r1.2 dot_tar
    if r2.1 then
      parse_suffix_end string
        { s with
          cursor := r2.2
          format :=
            { s.format with
              set_format := some FormatSetter.archive_write_set_format_gnutar
              hardlink_resolver_strategy := ARCHIVE_FORMAT_TAR_GNUTAR } }
    else
      parse_suffix_end string { s with cursor := r2.2, no_format_found := true }

/-- The code of `parse_suffix` from the label `parse_filter` on. -/
def parse_suffix_parse_filter (string : List Char) (s : ParseState) : ParseResult :=
  let r1 := slurp_suffix string s.cursor dot_gz
  if r1.1 then
    parse_suffix_parse_format string
      { s with
        cursor := r1.2
        format :=
          { s.format with
            add_filter := some FilterSetter.archive_write_add_filter_gzip
            options := some "gzip:compression-level=1" } }
  else
    let r2 := slurp_suffix string r1.2 dot_lzo
    if r2.1 then
      parse_suffix_parse_format string
        { s with
          cursor := r2.2
          format :=
            { s.format with
              add_filter := some FilterSetter.archive_write_add_filter_lzop
              options := some "lzop:compression-level=1" } }
    else
      let r3 := slurp_suffix string r2.2 dot_tgz
      if r3.1 then
        parse_suffix_end string
          { s with
            cursor := r3.2
            format :=
              { s.format with
                add_filter := some FilterSetter.archive_write_add_filter_gzip
                options := some "gzip:compression-level=1"
                set_format := some FormatSetter.archive_write_set_format_gnutar
                hardlink_resolver_strategy := ARCHIVE_FORMAT_TAR_GNUTAR } }
      else
        let r4 := slurp_suffix string r3.2 dot_tzo
        if r4.1 then
          parse_suffix_end string
            { s with
              cursor := r4.2
              format :=
                { s.format with
                  add_filter := some FilterSetter.archive_write_add_filter_lzop
                  options := some "lzop:compression-level=1"
                  set_format := some FormatSetter.archive_write_set_format_gnutar
                  hardlink_resolver_strategy := ARCHIVE_FORMAT_TAR_GNUTAR } }
        else
          parse_suffix_parse_format string { s with cursor := r4.2, no_filter_found := true }

/-- `parse_suffix(tracee, format, string, suffix_length)`. -/
def parse_suffix (string : List Char) : ParseResult :=
  let s0 : ParseState :=
    { format := Format.zero, cursor := string.length, no_wrapper_found := false,
      no_filter_found := false, no_format_found := false, trace := [] }
  let r := slurp_suffix string s0.cursor dot_bin
  if r.1 then
    parse_suffix_parse_filter string
      { s0 with cursor := r.2, format := { s0.format with self_extractable := true } }
  else
    parse_suffix_parse_filter string { s0 with cursor := r.2, no_wrapper_found := true }

/-! ## The environment of the I/O code -/

/-- Modelled from the spec: the `Archive` structure, declared in `extension/care/archive.h`
(not among the sources): the engine handle, the optional hardlink resolver, the output
descriptor and the payload offset, which are the four fields the code uses. -/
structure Archive where
  handle : Option Unit
  hardlink_resolver : Option Unit
  fd : Int
  offset : Int
  deriving DecidableEq, Repr

/-- The fields of `struct stat` that reach the code through the entry. -/
structure Stat where
  st_mode : Nat
  st_size : Int
  deriving DecidableEq, Repr

/-- An `archive_entry`, with the fields the code sets or reads. -/
structure Entry where
  pathname : List Char
  mode : Nat
  size : Int
  symlink : Option (List Char)
  deriving DecidableEq, Repr

/-- `archive_entry_filetype(entry)`: the file type bits of the mode. -/
def archive_entry_filetype (entry : Entry) : Nat := entry.mode &&& AE_IFMT

/-- `archive_entry_size(entry)`. -/
def archive_entry_size (entry : Entry) : Int := entry.size

/-- What the calls into libc and libarchive return.  A pointer result is `true` when it is
not `NULL`; a `read` is `none` when it fails and otherwise the bytes it stored, its return
value being their number; the `Nat` argument of a read or write is the number of earlier
calls of the same kind in the current run. -/
structure World where
  talloc_zero : Bool
  archive_write_new : Bool
  set_format : FormatSetter → Int
  archive_entry_linkresolver_new : Bool
  add_filter : FilterSetter → Int
  archive_write_set_options : String → Int
  open_self_exe : Int
  open_destination : Int
  read_self_exe : Nat → Option (List Nat)
  write_destination : Nat → List Nat → Int
  lseek : Int
  archive_write_open_fd : Int
  archive_write_open_filename : Int
  archive_write_close : Int
  archive_write_free : Int
  archive_entry_new : Bool
  archive_entry_linkify : Entry → Entry
  readlink : Int
  readlink_target : List Char
  archive_write_header : Int
  open_path : Int
  open_path_errno : Int
  read_path : Nat → Option (List Nat)
  archive_write_data : Nat → List Nat → Int

/-! ## `copy_self_exe` and `new_archive` -/

/-- The `while (1)` loop of `copy_self_exe`, from its `k`-th iteration on: the value of
`status` on leaving the loop (by `break` or by `goto end`) and the calls made. -/
def copy_self_exe_loop (w : World) : Nat → Nat → List Call → Option (Int × List Call)
  | 0, _, _ => none
  | fuel + 1, k, trace =>
    match w.read_self_exe k with
    | none =>
      some (-1, trace ++ [Call.read_self_exe,
        Call.notice Severity.ERROR Origin.SYSTEM "can't read '/proc/self/exe'"])
    | some buffer =>
      let status : Int := buffer.length
      if status == 0 then
        some (status, trace ++ [Call.read_self_exe])
      else
        let size : Int := status
        let status : Int := w.write_destination k buffer
        if status < 0 then
          some (status, trace ++ [Call.read_self_exe, Call.write_destination buffer,
            Call.notice Severity.ERROR Origin.SYSTEM "can't write '%s'"])
        else if status != size then
          copy_self_exe_loop w fuel (k + 1)
            (trace ++ [Call.read_self_exe, Call.write_destination buffer,
              Call.notice Severity.WARNING Origin.INTERNAL "wrote %zd bytes instead of %zd"])
        else
          copy_self_exe_loop w fuel (k + 1)
            (trace ++ [Call.read_self_exe, Call.write_destination buffer])

/-- The code of `copy_self_exe` from the label `end` on. -/
def copy_self_exe_end (output_fd status : Int) (trace : List Call) : Int × List Call :=
  let trace := trace ++ [Call.close_input]
  if status < 0 then (-1, trace ++ [Call.close_output]) else (output_fd, trace)

/-- `copy_self_exe(tracee, destination)`: the returned descriptor or -1, and the calls made;
`none` when the loop is still running after `fuel` iterations. -/
def copy_self_exe (fuel : Nat) (w : World) : Option (Int × List Call) :=
  let input_fd := w.open_self_exe
  if input_fd < 0 then
    some (-1, [Call.open_self_exe,
      Call.notice Severity.ERROR Origin.SYSTEM "can't open '/proc/self/exe'"])
  else
    let output_fd := w.open_destination
    if output_fd < 0 then
      some (copy_self_exe_end output_fd (-1)
        [Call.open_self_exe, Call.open_destination,
          Call.notice Severity.ERROR Origin.SYSTEM "can't open/create '%s'"])
    else
      match copy_self_exe_loop w fuel 0 [Call.open_self_exe, Call.open_destination] with
      | none => none
      | some (status, trace) => some (copy_self_exe_end output_fd status trace)

/-- How a call of `new_archive` ends. -/
inductive NewArchiveResult where
  | assertion_failed
  | null
  | archive (a : Archive)
  deriving DecidableEq, Repr

/-- The code of `new_archive` from the test of `format.self_extractable` on. -/
def new_archive_open (fuel : Nat) (w : World) (format : Format) (output : List Char)
    (archive : Archive) (trace : List Call) : Option (NewArchiveResult × List Call) :=
  if format.self_extractable then
    match copy_self_exe fuel w with
    | none => none
    | some (fd, copied) =>
      let archive := { archive with fd := fd }
      let trace := trace ++ copied
      if fd < 0 then some (NewArchiveResult.null, trace)
      else
        let archive := { archive with offset := w.lseek }
        let trace := trace ++ [Call.lseek, Call.archive_write_open_fd fd]
        if w.archive_write_open_fd != ARCHIVE_OK then
          some (NewArchiveResult.null, trace ++
            [Call.notice Severity.ERROR Origin.INTERNAL "can't open archive '%s': %s"])
        else some (NewArchiveResult.archive archive, trace)
  else
    let trace := trace ++ [Call.archive_write_open_filename output]
    if w.archive_write_open_filename != ARCHIVE_OK then
      some (NewArchiveResult.null, trace ++
        [Call.notice Severity.ERROR Origin.INTERNAL "can't open archive '%s': %s"])
    else some (NewArchiveResult.archive archive, trace)

/-- The code of `new_archive` from the test of `format.options` on. -/
def new_archive_set_options (fuel : Nat) (w : World) (format : Format) (output : List Char)
    (archive : Archive) (trace : List Call) : Option (NewArchiveResult × List Call) :=
  match format.options with
  | none => new_archive_open fuel w format output archive trace
  | some options =>
    let trace := trace ++ [Call.archive_write_set_options options]
    if w.archive_write_set_options options != ARCHIVE_OK then
      some (NewArchiveResult.null, trace ++
        [Call.notice Severity.ERROR Origin.INTERNAL "can't set archive options: %s"])
    else new_archive_open fuel w format output archive trace

/-- The code of `new_archive` from the test of `format.add_filter` on. -/
def new_archive_add_filter (fuel : Nat) (w : World) (format : Format) (output : List Char)
    (archive : Archive) (trace : List Call) : Option (NewArchiveResult × List Call) :=
  match format.add_filter with
  | none => new_archive_set_options fuel w format output archive trace
  | some add_filter =>
    let trace := trace ++ [Call.add_filter add_filter]
    if w.add_filter add_filter != ARCHIVE_OK then
      some (NewArchiveResult.null, trace ++
        [Call.notice Severity.ERROR Origin.INTERNAL "can't add archive filter: %s"])
    else new_archive_set_options fuel w format output archive trace

/-- The code of `new_archive` from the test of `format.hardlink_resolver_strategy` on. -/
def new_archive_resolver (fuel : Nat) (w : World) (format : Format) (output : List Char)
    (archive : Archive) (trace : List Call) : Option (NewArchiveResult × List Call) :=
  if format.hardlink_resolver_strategy != 0 then
    let trace := trace ++ [Call.archive_entry_linkresolver_new]
    if w.archive_entry_linkresolver_new then
      new_archive_add_filter fuel w format output { archive with hardlink_resolver := some () }
        (trace ++ [Call.archive_entry_linkresolver_set_strategy format.hardlink_resolver_strategy])
    else
      new_archive_add_filter fuel w format output archive trace
  else
    new_archive_add_filter fuel w format output archive trace

/-- `new_archive(context, tracee, output, suffix_length)`: how the call ends, the value
left in `*suffix_length` and the calls made; `none` when `copy_self_exe` is still running
after `fuel` iterations of its loop. -/
def new_archive (fuel : Nat) (w : World) (output : List Char) :
    Option (NewArchiveResult × Nat × List Call) :=
  let parsed := parse_suffix output
  let format := parsed.format
  let trace := parsed.trace ++ [Call.talloc_zero]
  if !w.talloc_zero then
    some (NewArchiveResult.null, parsed.suffix_length, trace ++
      [Call.notice Severity.ERROR Origin.INTERNAL "can't allocate archive structure"])
  else
    let trace := trace ++ [Call.archive_write_new]
    if !w.archive_write_new then
      some (NewArchiveResult.null, parsed.suffix_length, trace ++
        [Call.notice Severity.WARNING Origin.INTERNAL "can't initialize archive structure"])
    else
      match format.set_format with
      | none => some (NewArchiveResult.assertion_failed, parsed.suffix_length, trace)
      | some set_format =>
        let trace := trace ++ [Call.set_format set_format]
        if w.set_format set_format != ARCHIVE_OK then
          some (NewArchiveResult.null, parsed.suffix_length, trace ++
            [Call.notice Severity.ERROR Origin.INTERNAL "can't set archive format: %s"])
        else
          let archive : Archive :=
            { handle := some (), hardlink_resolver := none, fd := -1, offset := 0 }
          match new_archive_resolver fuel w format output archive trace with
          | none => none
          | some (result, trace) => some (result, parsed.suffix_length, trace)

/-! ## `finalize_archive` -/

/-- `finalize_archive(archive)`: the returned status and the calls made. -/
def finalize_archive (w : World) (archive : Option Archive) : Int × List Call :=
  match archive with
  | none => (-1, [])
  | some a =>
    if a.handle.isNone then (-1, [])
    else
      let trace : List Call :=
        if a.hardlink_resolver.isSome then [Call.archive_entry_linkresolver_free] else []
      let trace := trace ++ [Call.archive_write_close]
      if w.archive_write_close != ARCHIVE_OK then (-1, trace)
      else
        let trace := trace ++ [Call.archive_write_free]
        if w.archive_write_free != ARCHIVE_OK then (-1, trace)
        else (0, trace)

/-! ## `archive` -/

/-- The code of `archive` from the label `end` on; `fd_open` is `fd >= 0` and `entry` is
`entry != NULL`. -/
def archive_end (fd_open entry : Bool) (status : Int) (trace : List Call) : Int × List Call :=
  let trace := if fd_open then trace ++ [Call.close_path] else trace
  let trace := if entry then trace ++ [Call.archive_entry_free] else trace
  (status, trace)

/-- The `do ... while (status > 0)` loop of `archive`, from its `k`-th iteration on: the
value of `status` on leaving the loop (by falling through or by `goto end`) and the calls
made; `none` when the loop is still running after `fuel` iterations. -/
def archive_copy (w : World) : Nat → Nat → List Call → Option (Int × List Call)
  | 0, _, _ => none
  | fuel + 1, k, trace =>
    match w.read_path k with
    | none =>
      some (-1, trace ++ [Call.read_path,
        Call.notice Severity.WARNING Origin.SYSTEM "can't read '%s'"])
    | some buffer =>
      let status : Int := buffer.length
      let size : Nat := to_size_t (w.archive_write_data k buffer)
      let trace := trace ++ [Call.read_path, Call.archive_write_data buffer]
      if to_size_t status != size then
        some (-1, trace ++
          [Call.notice Severity.WARNING Origin.INTERNAL "can't archive '%s' content: %s"])
      else if status > 0 then
        archive_copy w fuel (k + 1) trace
      else
        some (0, trace)

/-- The entry of `archive` once the hardlinks were resolved, that is what `archive` reads
the size and the type from. -/
def archive_resolved_entry (w : World) (a : Archive) (path : List Char)
    (alternate_path : Option (List Char)) (statl : Stat) : Entry :=
  let entry : Entry :=
    { pathname := alternate_path.getD path, mode := statl.st_mode, size := statl.st_size,
      symlink := none }
  if a.hardlink_resolver.isSome then w.archive_entry_linkify entry else entry

/-- `archive(tracee, archive, path, alternate_path, statl)`: the returned status and the
calls made; `none` when the copy loop is still running after `fuel` iterations. -/
def archive (fuel : Nat) (w : World) (archive : Option Archive) (path : List Char)
    (alternate_path : Option (List Char)) (statl : Stat) : Option (Int × List Call) :=
  match archive with
  | none => some (-1, [])
  | some a =>
    if a.handle.isNone then some (-1, [])
    else if !w.archive_entry_new then
      some (archive_end false false (-1)
        [Call.archive_entry_new,
          Call.notice Severity.WARNING Origin.INTERNAL "can't create archive entry for '%s': %s"])
    else
      let trace : List Call :=
        [Call.archive_entry_new, Call.archive_entry_set_pathname (alternate_path.getD path),
          Call.archive_entry_copy_stat]
      let trace := if a.hardlink_resolver.isSome then trace ++ [Call.archive_entry_linkify] else trace
      let entry := archive_resolved_entry w a path alternate_path statl
      let size : Nat := to_size_t (archive_entry_size entry)
      let type : Nat := archive_entry_filetype entry
      let linked : Option (List Call) :=
        if type == AE_IFLNK then
          let status : Int := w.readlink
          let status : Int := if status >= PATH_MAX then -1 else status
          if status < 0 then none
          else
            some (trace ++ [Call.readlink,
              Call.archive_entry_set_symlink (w.readlink_target.take status.toNat)])
        else some trace
      match linked with
      | none =>
        some (archive_end false true (-1)
          (trace ++ [Call.readlink,
            Call.notice Severity.WARNING Origin.SYSTEM "can't readlink '%s'"]))
      | some trace =>
        let trace := trace ++ [Call.archive_write_header]
        if w.archive_write_header != ARCHIVE_OK then
          some (archive_end false true (-1)
            (trace ++
              [Call.notice Severity.WARNING Origin.INTERNAL "can't write header for '%s': %s"]))
        else if type != AE_IFREG || size == 0 then
          some (archive_end false true 0 trace)
        else
          let fd := w.open_path
          let trace := trace ++ [Call.open_path]
          if fd < 0 then
            some (archive_end false true (-1)
              (if w.open_path_errno != EACCES then
                trace ++ [Call.notice Severity.WARNING Origin.SYSTEM "can't open '%s'"]
              else trace))
          else
            match archive_copy w fuel 0 trace with
            | none => none
            | some (status, trace) => some (archive_end true true status trace)

/-- The buffers handed to `archive_write_data`, in order. -/
def written_data : List Call → List (List Nat)
  | [] => []
  | Call.archive_write_data buffer :: rest => buffer :: written_data rest
  | _ :: rest => written_data rest

/-- The calls of the copy loop of `archive` for the given buffers: one read and one write
each. -/
def copy_calls (buffers : List (List Nat)) : List Call :=
  buffers.flatMap fun buffer => [Call.read_path, Call.archive_write_data buffer]

/-- The calls `archive` makes before its copy loop when the entry is a regular file with
content, the header is written and the source is opened. -/
def archive_prologue (a : Archive) (path : List Char) (alternate_path : Option (List Char)) :
    List Call :=
  (if a.hardlink_resolver.isSome then
      [Call.archive_entry_new, Call.archive_entry_set_pathname (alternate_path.getD path),
        Call.archive_entry_copy_stat, Call.archive_entry_linkify]
    else
      [Call.archive_entry_new, Call.archive_entry_set_pathname (alternate_path.getD path),
        Call.archive_entry_copy_stat])
    ++ [Call.archive_write_header, Call.open_path]

/-! ## Worlds used as examples -/

/-- A world where every call succeeds, every file is empty, and the engine accepts in full
whatever it is handed. -/
def quiet_world : World :=
  { talloc_zero := true
    archive_write_new := true
    set_format := fun _ => ARCHIVE_OK
    archive_entry_linkresolver_new := true
    add_filter := fun _ => ARCHIVE_OK
    archive_write_set_options := fun _ => ARCHIVE_OK
    open_self_exe := 3
    open_destination := 4
    read_self_exe := fun _ => some []
    write_destination := fun _ buffer => buffer.length
    lseek := 0
    archive_write_open_fd := ARCHIVE_OK
    archive_write_open_filename := ARCHIVE_OK
    archive_write_close := ARCHIVE_OK
    archive_write_free := ARCHIVE_OK
    archive_entry_new := true
    archive_entry_linkify := fun entry => entry
    readlink := 0
    readlink_target := []
    archive_write_header := ARCHIVE_OK
    open_path := 5
    open_path_errno := 0
    read_path := fun _ => some []
    archive_write_data := fun _ buffer => buffer.length }

/-- A world like `quiet_world` where `archive_write_close` answers `ARCHIVE_FATAL` (-30). -/
def close_fails_world : World := { quiet_world with archive_write_close := -30 }

/-- A world like `quiet_world` where `readlink` fills the whole `PATH_MAX` buffer. -/
def long_link_world : World := { quiet_world with readlink := 4096 }

/-- The status of a symbolic link. -/
def link_stat : Stat := { st_mode := 0o120777, st_size := 5000 }

/-- The status of a regular file of three bytes. -/
def file_stat : Stat := { st_mode := 0o100644, st_size := 3 }

/-- A world like `quiet_world` where the file read holds the three bytes 1, 2, 3. -/
def three_bytes_world : World :=
  { quiet_world with read_path := fun k => if k = 0 then some [1, 2, 3] else some [] }

/-- A world like `three_bytes_world` where the engine accepts two of the three bytes. -/
def short_write_world : World :=
  { three_bytes_world with archive_write_data := fun _ _ => 2 }

/-- A world like `three_bytes_world` where the engine accepts in full every non-empty
buffer and answers `ARCHIVE_FATAL` (-30) to an empty one. -/
def empty_write_fails_world : World :=
  { three_bytes_world with
    archive_write_data := fun _ buffer => if buffer = [] then -30 else buffer.length }

/-- The path `f`. -/
def path_f : List Char := ['f']

/-- An archive with a usable engine handle and a hardlink resolver. -/
def usable_archive : Archive :=
  { handle := some (), hardlink_resolver := some (), fd := -1, offset := 0 }

/-! ## Names used as examples -/

/-- The name `x.gz.zzz`. -/
def x_gz_zzz : List Char := ['x', '.', 'g', 'z', '.', 'z', 'z', 'z']

/-- The name `x.zzz`. -/
def x_zzz : List Char := ['x', '.', 'z', 'z', 'z']

/-- The name `ab.tar`. -/
def ab_tar : List Char := ['a', 'b', '.', 't', 'a', 'r']

/-! ## Lemmas on `slurp_suffix` -/

theorem slurp_suffix_at_end (s t : List Char) :
    slurp_suffix s s.length t
      = if t <:+ s then (true, s.length - t.length) else (false, s.length) := by
  unfold slurp_suffix strncmp_ne_zero
  by_cases hlt : s.length < t.length
  · have hns : ¬ t <:+ s := fun h => by have := h.length_le; omega
    simp [hlt, hns]
  · have hle : t.length ≤ s.length := by omega
    have hiff : (t <:+ s) ↔ List.drop (s.length - t.length) s = t := by
      constructor
      · intro h
        exact (List.suffix_iff_eq_drop.mp h).symm
      · intro h
        exact List.suffix_iff_eq_drop.mpr h.symm
    have htake : List.take t.length (List.drop (s.length - t.length) s)
        = List.drop (s.length - t.length) s := by
      apply List.take_of_length_le
      simp
      omega
    by_cases hs : t <:+ s
    · have := hiff.mp hs
      simp [hlt, hs, htake, this]
    · have : ¬ List.drop (s.length - t.length) s = t := fun h => hs (hiff.mpr h)
      simp [hlt, hs, htake, this]

/-- Only the part of the string before the cursor matters to `slurp_suffix`. -/
theorem slurp_suffix_before_cursor (a b t : List Char) :
    slurp_suffix (a ++ b) a.length t = slurp_suffix a a.length t := by
  unfold slurp_suffix strncmp_ne_zero
  by_cases hlt : a.length < t.length
  · simp [hlt]
  · have hle : t.length ≤ a.length := by omega
    have h1 : List.take t.length (List.drop (a.length - t.length) (a ++ b))
        = List.take t.length (List.drop (a.length - t.length) a) := by
      rw [List.drop_append_of_le_length (by omega)]
      rw [List.take_append_of_le_length (by simp; omega)]
    simp only [h1]

theorem slurp_suffix_split (a b t : List Char) :
    slurp_suffix (a ++ b) a.length t
      = if t <:+ a then (true, a.length - t.length) else (false, a.length) := by
  rw [slurp_suffix_before_cursor, slurp_suffix_at_end]

/-- A token no longer than `k` is a suffix of `p ++ k` exactly when it is one of `k`. -/
theorem suffix_append_short (p k t : List Char) (h : t.length ≤ k.length) :
    t <:+ p ++ k ↔ t <:+ k := by
  constructor
  · intro ht
    exact List.suffix_of_suffix_length_le ht (List.suffix_append p k) h
  · intro ht
    exact ht.trans (List.suffix_append p k)

theorem slurp_suffix_miss (s t : List Char) (h : ¬ t <:+ s) :
    slurp_suffix s s.length t = (false, s.length) := by
  rw [slurp_suffix_at_end, if_neg h]

theorem slurp_suffix_hit (s t : List Char) (h : t <:+ s) :
    slurp_suffix s s.length t = (true, s.length - t.length) := by
  rw [slurp_suffix_at_end, if_pos h]

/-- The format phase, with the tests of `slurp_suffix` read as suffix tests on the part of
the string before the cursor. -/
theorem parse_format_phase (string a b : List Char) (s : ParseState)
    (hstr : string = a ++ b) (hs : s.cursor = a.length) :
    parse_suffix_parse_format string s
      = if dot_cpio <:+ a then
          parse_suffix_end string
            { s with
              cursor := a.length - dot_cpio.length
              format :=
                { s.format with
                  set_format := some FormatSetter.archive_write_set_format_cpio
                  hardlink_resolver_strategy := ARCHIVE_FORMAT_CPIO_POSIX } }
        else if dot_tar <:+ a then
          parse_suffix_end string
            { s with
              cursor := a.length - dot_tar.length
              format :=
                { s.format with
                  set_format := some FormatSetter.archive_write_set_format_gnutar
                  hardlink_resolver_strategy := ARCHIVE_FORMAT_TAR_GNUTAR } }
        else
          parse_suffix_end string { s with cursor := a.length, no_format_found := true } := by
  subst hstr
  unfold parse_suffix_parse_format
  rw [hs]
  simp only [slurp_suffix_split]
  by_cases h1 : dot_cpio <:+ a
  · simp [h1]
  · by_cases h2 : dot_tar <:+ a
    · simp [h1, h2, slurp_suffix_split]
    · simp [h1, h2, slurp_suffix_split]

/-- The filter phase, with the tests of `slurp_suffix` read as suffix tests on the part of
the string before the cursor. -/
theorem parse_filter_phase (string a b : List Char) (s : ParseState)
    (hstr : string = a ++ b) (hs : s.cursor = a.length) :
    parse_suffix_parse_filter string s
      = if dot_gz <:+ a then
          parse_suffix_parse_format string
            { s with
              cursor := a.length - dot_gz.length
              format :=
                { s.format with
                  add_filter := some FilterSetter.archive_write_add_filter_gzip
                  options := some "gzip:compression-level=1" } }
        else if dot_lzo <:+ a then
          parse_suffix_parse_format string
            { s with
              cursor := a.length - dot_lzo.length
              format :=
                { s.format with
                  add_filter := some FilterSetter.archive_write_add_filter_lzop
                  options := some "lzop:compression-level=1" } }
        else if dot_tgz <:+ a then
          parse_suffix_end string
            { s with
              cursor := a.length - dot_tgz.length
              format :=
                { s.format with
                  add_filter := some FilterSetter.archive_write_add_filter_gzip
                  options := some "gzip:compression-level=1"
                  set_format := some FormatSetter.archive_write_set_format_gnutar
                  hardlink_resolver_strategy := ARCHIVE_FORMAT_TAR_GNUTAR } }
        else if dot_tzo <:+ a then
          parse_suffix_end string
            { s with
              cursor := a.length - dot_tzo.length
              format :=
                { s.format with
                  add_filter := some FilterSetter.archive_write_add_filter_lzop
                  options := some "lzop:compression-level=1"
                  set_format := some FormatSetter.archive_write_set_format_gnutar
                  hardlink_resolver_strategy := ARCHIVE_FORMAT_TAR_GNUTAR } }
        else
          parse_suffix_parse_format string { s with cursor := a.length, no_filter_found := true } := by
  subst hstr
  unfold parse_suffix_parse_filter
  rw [hs]
  simp only [slurp_suffix_split]
  by_cases h1 : dot_gz <:+ a
  · simp [h1]
  · by_cases h2 : dot_lzo <:+ a
    · simp [h1, h2, slurp_suffix_split]
    · by_cases h3 : dot_tgz <:+ a
      · simp [h1, h2, h3, slurp_suffix_split]
      · by_cases h4 : dot_tzo <:+ a
        · simp [h1, h2, h3, h4, slurp_suffix_split]
        · simp [h1, h2, h3, h4, slurp_suffix_split]

/-- The wrapper phase, with the test of `slurp_suffix` read as a suffix test. -/
theorem parse_wrapper_phase (string : List Char) :
    parse_suffix string
      = if dot_bin <:+ string then
          parse_suffix_parse_filter string
            { format := { Format.zero with self_extractable := true }
              cursor := string.length - dot_bin.length
              no_wrapper_found := false, no_filter_found := false, no_format_found := false
              trace := [] }
        else
          parse_suffix_parse_filter string
            { format := Format.zero
              cursor := string.length
              no_wrapper_found := true, no_filter_found := false, no_format_found := false
              trace := [] } := by
  unfold parse_suffix
  simp only [slurp_suffix_at_end]
  by_cases h : dot_bin <:+ string
  · simp [h]
  · simp [h]

/-- What `parse_suffix` does on a name whose only recognised ending is `.tgz`. -/
theorem parse_suffix_of_tgz (name : List Char) (h1 : ¬ dot_bin <:+ name)
    (h2 : ¬ dot_gz <:+ name) (h3 : ¬ dot_lzo <:+ name) (h4 : dot_tgz <:+ name) :
    parse_suffix name
      = { format :=
            { set_format := some FormatSetter.archive_write_set_format_gnutar
              add_filter := some FilterSetter.archive_write_add_filter_gzip
              hardlink_resolver_strategy := ARCHIVE_FORMAT_TAR_GNUTAR
              options := some "gzip:compression-level=1"
              self_extractable := false }
          suffix_length := 4
          trace := [] } := by
  have hl : dot_tgz.length = 4 := rfl
  have hle := h4.length_le
  simp [parse_suffix, parse_suffix_parse_filter, parse_suffix_end, slurp_suffix_miss, slurp_suffix_hit,
    h1, h2, h3, h4, Format.zero, hl]
  omega

/-- What `parse_suffix` does on a name whose only recognised ending is `.tzo`. -/
theorem parse_suffix_of_tzo (name : List Char) (h1 : ¬ dot_bin <:+ name)
    (h2 : ¬ dot_gz <:+ name) (h3 : ¬ dot_lzo <:+ name) (h4 : ¬ dot_tgz <:+ name)
    (h5 : dot_tzo <:+ name) :
    parse_suffix name
      = { format :=
            { set_format := some FormatSetter.archive_write_set_format_gnutar
              add_filter := some FilterSetter.archive_write_add_filter_lzop
              hardlink_resolver_strategy := ARCHIVE_FORMAT_TAR_GNUTAR
              options := some "lzop:compression-level=1"
              self_extractable := false }
          suffix_length := 4
          trace := [] } := by
  have hl : dot_tzo.length = 4 := rfl
  have hle := h5.length_le
  simp [parse_suffix, parse_suffix_parse_filter, parse_suffix_end, slurp_suffix_miss, slurp_suffix_hit,
    h1, h2, h3, h4, h5, Format.zero, hl]
  omega

/-! ## Theorems on `parse_suffix` -/

/-- C1: for every `p`, `parse_suffix` on `p ++ ".tgz"` yields the gnutar format with the gzip
filter, and on `p ++ ".tzo"` the gnutar format with the lzop filter, both with hardlink
strategy `ARCHIVE_FORMAT_TAR_GNUTAR`; the whole result (descriptor, suffix length 4, no
notice) is the same for every `p`. -/
theorem parse_suffix_combined_token (p : List Char) :
    parse_suffix (p ++ dot_tgz)
        = { format :=
              { set_format := some FormatSetter.archive_write_set_format_gnutar
                add_filter := some FilterSetter.archive_write_add_filter_gzip
                hardlink_resolver_strategy := ARCHIVE_FORMAT_TAR_GNUTAR
                options := some "gzip:compression-level=1"
                self_extractable := false }
            suffix_length := 4
            trace := [] }
      ∧ parse_suffix (p ++ dot_tzo)
        = { format :=
              { set_format := some FormatSetter.archive_write_set_format_gnutar
                add_filter := some FilterSetter.archive_write_add_filter_lzop
                hardlink_resolver_strategy := ARCHIVE_FORMAT_TAR_GNUTAR
                options := some "lzop:compression-level=1"
                self_extractable := false }
            suffix_length := 4
            trace := [] } := by
  constructor
  · apply parse_suffix_of_tgz
    · rw [suffix_append_short _ _ _ (by decide)]; decide
    · rw [suffix_append_short _ _ _ (by decide)]; decide
    · rw [suffix_append_short _ _ _ (by decide)]; decide
    · exact List.suffix_append p dot_tgz
  · apply parse_suffix_of_tzo
    · rw [suffix_append_short _ _ _ (by decide)]; decide
    · rw [suffix_append_short _ _ _ (by decide)]; decide
    · rw [suffix_append_short _ _ _ (by decide)]; decide
    · rw [suffix_append_short _ _ _ (by decide)]; decide
    · exact List.suffix_append p dot_tzo

/-- C2: a name that ends with none of `.bin`, `.gz`, `.lzo`, `.tgz`, `.tzo`, `.cpio`, `.tar`
resolves to the lzop filter, the cpio format and `self_extractable = true`; the notices are
exactly one "unknown suffix" warning, and no "unknown format" warning. -/
theorem parse_suffix_no_token (name : List Char)
    (h : ∀ t ∈ [dot_bin, dot_gz, dot_lzo, dot_tgz, dot_tzo, dot_cpio, dot_tar], ¬ t <:+ name) :
    (parse_suffix name).format
        = { set_format := some FormatSetter.archive_write_set_format_cpio
            add_filter := some FilterSetter.archive_write_add_filter_lzop
            hardlink_resolver_strategy := ARCHIVE_FORMAT_CPIO_POSIX
            options := some "lzop:compression-level=1"
            self_extractable := true }
      ∧ (parse_suffix name).trace = [unknown_suffix_notice]
      ∧ unknown_format_notice ∉ (parse_suffix name).trace := by
  simp only [List.mem_cons, List.mem_singleton, forall_eq_or_imp, forall_eq,
    List.not_mem_nil, false_implies, implies_true, and_true] at h
  obtain ⟨h1, h2, h3, h4, h5, h6, h7⟩ := h
  have key : parse_suffix name
      = { format :=
            { set_format := some FormatSetter.archive_write_set_format_cpio
              add_filter := some FilterSetter.archive_write_add_filter_lzop
              hardlink_resolver_strategy := ARCHIVE_FORMAT_CPIO_POSIX
              options := some "lzop:compression-level=1"
              self_extractable := true }
          suffix_length := 0
          trace := [unknown_suffix_notice] } := by
    rw [parse_wrapper_phase, if_neg h1,
      parse_filter_phase name name [] _ (List.append_nil name).symm rfl,
      if_neg h2, if_neg h3, if_neg h4, if_neg h5,
      parse_format_phase name name [] _ (List.append_nil name).symm rfl,
      if_neg h6, if_neg h7]
    simp [parse_suffix_end, Format.zero]
  rw [key]
  refine ⟨rfl, rfl, ?_⟩
  decide

/-- Witness for C2 on the name `out`. -/
theorem parse_suffix_no_token_witness :
    (parse_suffix ['o', 'u', 't']).format
        = { set_format := some FormatSetter.archive_write_set_format_cpio
            add_filter := some FilterSetter.archive_write_add_filter_lzop
            hardlink_resolver_strategy := ARCHIVE_FORMAT_CPIO_POSIX
            options := some "lzop:compression-level=1"
            self_extractable := true }
      ∧ (parse_suffix ['o', 'u', 't']).trace = [unknown_suffix_notice]
      ∧ unknown_format_notice ∉ (parse_suffix ['o', 'u', 't']).trace :=
  parse_suffix_no_token ['o', 'u', 't'] (by decide)

/-- C3, as stated, fails: on `x.gz.zzz` the gzip filter is not kept, no "unknown format"
warning is emitted and the "unknown suffix" warning is. -/
theorem parse_suffix_x_gz_zzz_not_gzip :
    ¬ ((parse_suffix x_gz_zzz).format.add_filter = some FilterSetter.archive_write_add_filter_gzip
        ∧ (parse_suffix x_gz_zzz).format.set_format
            = some FormatSetter.archive_write_set_format_cpio
        ∧ (parse_suffix x_gz_zzz).trace.count unknown_format_notice = 1
        ∧ unknown_suffix_notice ∉ (parse_suffix x_gz_zzz).trace) := by
  decide

/-- C3, amended: the name `x.gz.zzz` ends with no recognised token, so `parse_suffix` yields
the lzop filter, the cpio format and `self_extractable = true`, and emits exactly one
"unknown suffix" warning and no "unknown format" warning. -/
theorem parse_suffix_x_gz_zzz :
    parse_suffix x_gz_zzz
        = { format :=
              { set_format := some FormatSetter.archive_write_set_format_cpio
                add_filter := some FilterSetter.archive_write_add_filter_lzop
                hardlink_resolver_strategy := ARCHIVE_FORMAT_CPIO_POSIX
                options := some "lzop:compression-level=1"
                self_extractable := true }
            suffix_length := 0
            trace := [unknown_suffix_notice] }
      ∧ (parse_suffix x_gz_zzz).trace.count unknown_suffix_notice = 1
      ∧ unknown_format_notice ∉ (parse_suffix x_gz_zzz).trace := by
  decide

/-- A token that neither ends `k` nor is ended by `k` does not end `p ++ k`. -/
theorem not_suffix_append (p k t : List Char) (h1 : ¬ t <:+ k) (h2 : ¬ k <:+ t) :
    ¬ t <:+ p ++ k := by
  intro h
  rcases List.suffix_or_suffix_of_suffix h (List.suffix_append p k) with h | h
  · exact h1 h
  · exact h2 h

/-- C4: on `p ++ f ++ w` with `f` one of `.gz`, `.lzo`, `w` empty or `.bin`, and `p` ending
in neither `.cpio` nor `.tar`, `parse_suffix` keeps the filter selected by `f` with its
compression-level=1 options, sets the cpio format with `ARCHIVE_FORMAT_CPIO_POSIX`, sets
`self_extractable` exactly when `w` is `.bin`, and emits exactly one notice, the "unknown
format, assuming cpio format." warning (so no "unknown suffix" warning). -/
theorem parse_suffix_filter_only (p f w : List Char)
    (hf : f = dot_gz ∨ f = dot_lzo) (hw : w = [] ∨ w = dot_bin)
    (hc : ¬ dot_cpio <:+ p) (ht : ¬ dot_tar <:+ p) :
    (parse_suffix (p ++ f ++ w)).format
        = { set_format := some FormatSetter.archive_write_set_format_cpio
            add_filter :=
              some (if f = dot_gz then FilterSetter.archive_write_add_filter_gzip
                else FilterSetter.archive_write_add_filter_lzop)
            hardlink_resolver_strategy := ARCHIVE_FORMAT_CPIO_POSIX
            options :=
              some (if f = dot_gz then "gzip:compression-level=1" else "lzop:compression-level=1")
            self_extractable := decide (w = dot_bin) }
      ∧ (parse_suffix (p ++ f ++ w)).trace = [unknown_format_notice]
      ∧ unknown_suffix_notice ∉ (parse_suffix (p ++ f ++ w)).trace := by
  have hgz : dot_gz <:+ p ++ dot_gz := List.suffix_append p dot_gz
  have hlzo : dot_lzo <:+ p ++ dot_lzo := List.suffix_append p dot_lzo
  have hgl : ¬ dot_gz <:+ p ++ dot_lzo := not_suffix_append p _ _ (by decide) (by decide)
  have key : parse_suffix (p ++ f ++ w)
      = { format :=
            { set_format := some FormatSetter.archive_write_set_format_cpio
              add_filter :=
                some (if f = dot_gz then FilterSetter.archive_write_add_filter_gzip
                  else FilterSetter.archive_write_add_filter_lzop)
              hardlink_resolver_strategy := ARCHIVE_FORMAT_CPIO_POSIX
              options :=
                some (if f = dot_gz then "gzip:compression-level=1"
                  else "lzop:compression-level=1")
              self_extractable := decide (w = dot_bin) }
          suffix_length := f.length + w.length
          trace := [unknown_format_notice] } := by
    rcases hw with rfl | rfl
    · simp only [List.append_nil]
      rcases hf with rfl | rfl
      · have hb : ¬ dot_bin <:+ p ++ dot_gz :=
          not_suffix_append p _ _ (by decide) (by decide)
        rw [parse_wrapper_phase, if_neg hb,
          parse_filter_phase _ (p ++ dot_gz) [] _ (List.append_nil _).symm rfl, if_pos hgz,
          parse_format_phase _ p dot_gz _ rfl (by simp),
          if_neg hc, if_neg ht]
        simp [parse_suffix_end, Format.zero]
        decide
      · have hb : ¬ dot_bin <:+ p ++ dot_lzo :=
          not_suffix_append p _ _ (by decide) (by decide)
        rw [parse_wrapper_phase, if_neg hb,
          parse_filter_phase _ (p ++ dot_lzo) [] _ (List.append_nil _).symm rfl,
          if_neg hgl, if_pos hlzo,
          parse_format_phase _ p dot_lzo _ rfl (by simp),
          if_neg hc, if_neg ht]
        simp [parse_suffix_end, Format.zero]
        decide
    · rcases hf with rfl | rfl
      · rw [parse_wrapper_phase, if_pos (List.suffix_append _ dot_bin),
          parse_filter_phase _ (p ++ dot_gz) dot_bin _ rfl (by simp; omega), if_pos hgz,
          parse_format_phase _ p (dot_gz ++ dot_bin) _ (by simp) (by simp),
          if_neg hc, if_neg ht]
        simp [parse_suffix_end, Format.zero]
      · rw [parse_wrapper_phase, if_pos (List.suffix_append _ dot_bin),
          parse_filter_phase _ (p ++ dot_lzo) dot_bin _ rfl (by simp; omega),
          if_neg hgl, if_pos hlzo,
          parse_format_phase _ p (dot_lzo ++ dot_bin) _ (by simp) (by simp),
          if_neg hc, if_neg ht]
        simp [parse_suffix_end, Format.zero]
        decide
  rw [key]
  refine ⟨rfl, rfl, ?_⟩
  show unknown_suffix_notice ∉ [unknown_format_notice]
  decide

/-- Witness for C4 on `x.zzz.gz`. -/
theorem parse_suffix_filter_only_witness :
    (parse_suffix (x_zzz ++ dot_gz ++ [])).format
        = { set_format := some FormatSetter.archive_write_set_format_cpio
            add_filter :=
              some (if dot_gz = dot_gz then FilterSetter.archive_write_add_filter_gzip
                else FilterSetter.archive_write_add_filter_lzop)
            hardlink_resolver_strategy := ARCHIVE_FORMAT_CPIO_POSIX
            options :=
              some (if dot_gz = dot_gz then "gzip:compression-level=1"
                else "lzop:compression-level=1")
            self_extractable := decide (([] : List Char) = dot_bin) }
      ∧ (parse_suffix (x_zzz ++ dot_gz ++ [])).trace = [unknown_format_notice]
      ∧ unknown_suffix_notice ∉ (parse_suffix (x_zzz ++ dot_gz ++ [])).trace :=
  parse_suffix_filter_only x_zzz dot_gz [] (Or.inl rfl) (Or.inl rfl) (by decide) (by decide)

theorem parse_suffix_end_suffix_length (string : List Char) (s : ParseState) :
    (parse_suffix_end string s).suffix_length = string.length - s.cursor := by
  cases h1 : s.no_filter_found <;> cases h2 : s.no_format_found <;>
    simp [parse_suffix_end, h1, h2]

theorem parse_suffix_end_set_format (string : List Char) (s : ParseState)
    (h : s.no_format_found = true
      ∨ s.format.set_format = some FormatSetter.archive_write_set_format_cpio
      ∨ s.format.set_format = some FormatSetter.archive_write_set_format_gnutar) :
    (parse_suffix_end string s).format.set_format
        = some FormatSetter.archive_write_set_format_cpio
      ∨ (parse_suffix_end string s).format.set_format
        = some FormatSetter.archive_write_set_format_gnutar := by
  cases h1 : s.no_filter_found <;> cases h2 : s.no_format_found <;>
    simp_all [parse_suffix_end]

theorem parse_suffix_parse_format_set_format (string : List Char) (s : ParseState) :
    (parse_suffix_parse_format string s).format.set_format
        = some FormatSetter.archive_write_set_format_cpio
      ∨ (parse_suffix_parse_format string s).format.set_format
        = some FormatSetter.archive_write_set_format_gnutar := by
  simp only [parse_suffix_parse_format]
  split_ifs <;> exact parse_suffix_end_set_format _ _ (by simp)

theorem parse_suffix_parse_filter_set_format (string : List Char) (s : ParseState) :
    (parse_suffix_parse_filter string s).format.set_format
        = some FormatSetter.archive_write_set_format_cpio
      ∨ (parse_suffix_parse_filter string s).format.set_format
        = some FormatSetter.archive_write_set_format_gnutar := by
  simp only [parse_suffix_parse_filter]
  split_ifs
  · exact parse_suffix_parse_format_set_format _ _
  · exact parse_suffix_parse_format_set_format _ _
  · exact parse_suffix_end_set_format _ _ (by simp)
  · exact parse_suffix_end_set_format _ _ (by simp)
  · exact parse_suffix_parse_format_set_format _ _

/-- After `parse_suffix`, `set_format` holds the cpio or the gnutar setter. -/
theorem parse_suffix_set_format (string : List Char) :
    (parse_suffix string).format.set_format
        = some FormatSetter.archive_write_set_format_cpio
      ∨ (parse_suffix string).format.set_format
        = some FormatSetter.archive_write_set_format_gnutar := by
  simp only [parse_suffix]
  split_ifs <;> exact parse_suffix_parse_filter_set_format _ _

/-- The format phase consumes `.cpio`, or else `.tar`, or else nothing. -/
theorem parse_format_shape (string a b : List Char) (hstr : string = a ++ b) :
    ∃ p g : List Char, a = p ++ g
      ∧ (g = dot_cpio ∨ g = dot_tar ∨ (g = [] ∧ ¬ dot_cpio <:+ p ∧ ¬ dot_tar <:+ p))
      ∧ ∀ s : ParseState, s.cursor = a.length →
          (parse_suffix_parse_format string s).suffix_length = g.length + b.length := by
  subst hstr
  by_cases h1 : dot_cpio <:+ a
  · obtain ⟨p, rfl⟩ := h1
    refine ⟨p, dot_cpio, rfl, Or.inl rfl, fun s hs => ?_⟩
    rw [parse_format_phase _ _ b s rfl hs,
      if_pos (List.suffix_append p dot_cpio), parse_suffix_end_suffix_length]
    simp only [List.length_append]
    omega
  · by_cases h2 : dot_tar <:+ a
    · obtain ⟨p, rfl⟩ := h2
      refine ⟨p, dot_tar, rfl, Or.inr (Or.inl rfl), fun s hs => ?_⟩
      rw [parse_format_phase _ _ b s rfl hs,
        if_neg h1, if_pos (List.suffix_append p dot_tar), parse_suffix_end_suffix_length]
      simp only [List.length_append]
      omega
    · refine ⟨a, [], (List.append_nil a).symm, Or.inr (Or.inr ⟨rfl, h1, h2⟩), fun s hs => ?_⟩
      rw [parse_format_phase _ _ b s rfl hs,
        if_neg h1, if_neg h2, parse_suffix_end_suffix_length]
      simp only [List.length_append, List.length_nil]
      omega

/-- The filter phase consumes one of `.gz`, `.lzo`, `.tgz`, `.tzo` or nothing, and the format
phase follows unless a combined token was consumed. -/
theorem parse_filter_shape (string a b : List Char) (hstr : string = a ++ b) :
    ∃ p g f : List Char, a = p ++ g ++ f
      ∧ (f = dot_gz ∨ f = dot_lzo ∨ f = dot_tgz ∨ f = dot_tzo
          ∨ (f = [] ∧ ¬ dot_gz <:+ p ++ g ∧ ¬ dot_lzo <:+ p ++ g
              ∧ ¬ dot_tgz <:+ p ++ g ∧ ¬ dot_tzo <:+ p ++ g))
      ∧ ((g = [] ∧ (f = dot_tgz ∨ f = dot_tzo))
          ∨ (f ≠ dot_tgz ∧ f ≠ dot_tzo
              ∧ (g = dot_cpio ∨ g = dot_tar
                  ∨ (g = [] ∧ ¬ dot_cpio <:+ p ∧ ¬ dot_tar <:+ p))))
      ∧ ∀ s : ParseState, s.cursor = a.length →
          (parse_suffix_parse_filter string s).suffix_length
            = g.length + f.length + b.length := by
  by_cases h1 : dot_gz <:+ a
  · obtain ⟨a1, rfl⟩ := h1
    obtain ⟨p, g, rfl, hg, hlen⟩ :=
      parse_format_shape string a1 (dot_gz ++ b) (by rw [hstr, List.append_assoc])
    refine ⟨p, g, dot_gz, rfl, Or.inl rfl, Or.inr ⟨by decide, by decide, hg⟩, fun s hs => ?_⟩
    rw [parse_filter_phase string _ b s hstr hs, if_pos (List.suffix_append _ dot_gz),
      hlen _ (by simp only [List.length_append]; omega)]
    simp only [List.length_append]
    omega
  · by_cases h2 : dot_lzo <:+ a
    · obtain ⟨a1, rfl⟩ := h2
      obtain ⟨p, g, rfl, hg, hlen⟩ :=
        parse_format_shape string a1 (dot_lzo ++ b) (by rw [hstr, List.append_assoc])
      refine ⟨p, g, dot_lzo, rfl, Or.inr (Or.inl rfl), Or.inr ⟨by decide, by decide, hg⟩,
        fun s hs => ?_⟩
      rw [parse_filter_phase string _ b s hstr hs, if_neg h1,
        if_pos (List.suffix_append _ dot_lzo),
        hlen _ (by simp only [List.length_append]; omega)]
      simp only [List.length_append]
      omega
    · by_cases h3 : dot_tgz <:+ a
      · obtain ⟨a1, rfl⟩ := h3
        refine ⟨a1, [], dot_tgz, by simp, Or.inr (Or.inr (Or.inl rfl)),
          Or.inl ⟨rfl, Or.inl rfl⟩, fun s hs => ?_⟩
        rw [parse_filter_phase string _ b s hstr hs, if_neg h1, if_neg h2,
          if_pos (List.suffix_append a1 dot_tgz), parse_suffix_end_suffix_length]
        subst hstr
        simp only [List.length_append, List.length_nil]
        omega
      · by_cases h4 : dot_tzo <:+ a
        · obtain ⟨a1, rfl⟩ := h4
          refine ⟨a1, [], dot_tzo, by simp, Or.inr (Or.inr (Or.inr (Or.inl rfl))),
            Or.inl ⟨rfl, Or.inr rfl⟩, fun s hs => ?_⟩
          rw [parse_filter_phase string _ b s hstr hs, if_neg h1, if_neg h2, if_neg h3,
            if_pos (List.suffix_append a1 dot_tzo), parse_suffix_end_suffix_length]
          subst hstr
          simp only [List.length_append, List.length_nil]
          omega
        · obtain ⟨p, g, rfl, hg, hlen⟩ := parse_format_shape string a b hstr
          refine ⟨p, g, [], by simp,
            Or.inr (Or.inr (Or.inr (Or.inr ⟨rfl, h1, h2, h3, h4⟩))),
            Or.inr ⟨by decide, by decide, hg⟩, fun s hs => ?_⟩
          rw [parse_filter_phase string _ b s hstr hs, if_neg h1, if_neg h2, if_neg h3,
            if_neg h4, hlen _ rfl]
          simp only [List.length_nil]
          omega

/-- The name splits as `p ++ g ++ f ++ w` where `w`, `f`, `g` are the tokens consumed by
the wrapper, filter and format phases, and `suffix_length` is their total length. -/
theorem parse_suffix_shape (name : List Char) :
    ∃ p g f w : List Char, name = p ++ g ++ f ++ w
      ∧ (parse_suffix name).suffix_length = g.length + f.length + w.length
      ∧ (w = dot_bin ∨ (w = [] ∧ ¬ dot_bin <:+ name))
      ∧ (f = dot_gz ∨ f = dot_lzo ∨ f = dot_tgz ∨ f = dot_tzo
          ∨ (f = [] ∧ ¬ dot_gz <:+ p ++ g ∧ ¬ dot_lzo <:+ p ++ g
              ∧ ¬ dot_tgz <:+ p ++ g ∧ ¬ dot_tzo <:+ p ++ g))
      ∧ ((g = [] ∧ (f = dot_tgz ∨ f = dot_tzo))
          ∨ (f ≠ dot_tgz ∧ f ≠ dot_tzo
              ∧ (g = dot_cpio ∨ g = dot_tar
                  ∨ (g = [] ∧ ¬ dot_cpio <:+ p ∧ ¬ dot_tar <:+ p)))) := by
  rw [parse_wrapper_phase]
  by_cases h : dot_bin <:+ name
  · obtain ⟨a, rfl⟩ := h
    rw [if_pos (List.suffix_append a dot_bin)]
    obtain ⟨p, g, f, rfl, hf, hg, hlen⟩ := parse_filter_shape (a ++ dot_bin) a dot_bin rfl
    refine ⟨p, g, f, dot_bin, rfl, ?_, Or.inl rfl, hf, hg⟩
    rw [hlen _ (by simp only [List.length_append]; omega)]
  · rw [if_neg h]
    obtain ⟨p, g, f, rfl, hf, hg, hlen⟩ :=
      parse_filter_shape name name [] (List.append_nil name).symm
    refine ⟨p, g, f, [], by simp, ?_, Or.inr ⟨rfl, h⟩, hf, hg⟩
    rw [hlen _ rfl]

/-- C6, as stated, fails: on `ab.tar` the only token matched is `.tar` (gnutar format, no
filter, no wrapper), the portion that precedes it is `ab`, of length 2, and the suffix
length is 4. -/
theorem parse_suffix_ab_tar_suffix_length :
    ab_tar = ['a', 'b'] ++ dot_tar
      ∧ (parse_suffix ab_tar).format.set_format
          = some FormatSetter.archive_write_set_format_gnutar
      ∧ (parse_suffix ab_tar).format.add_filter = none
      ∧ (parse_suffix ab_tar).format.self_extractable = false
      ∧ (parse_suffix ab_tar).suffix_length = 4
      ∧ (parse_suffix ab_tar).suffix_length ≠ ['a', 'b'].length := by
  decide

/-- C6, amended: the name splits as `p ++ g ++ f ++ w`, where `w`, `f`, `g` are the tokens
matched by the wrapper, filter and format phases (each empty when its phase matched
nothing) and `p` is the remainder left unconsumed; the suffix length is the length of the
name minus the length of `p`, so that `p` is the first `name.length - suffix_length`
characters of the name. -/
theorem parse_suffix_suffix_length_complement (name : List Char) :
    ∃ p g f w : List Char, name = p ++ g ++ f ++ w
      ∧ (w = dot_bin ∨ (w = [] ∧ ¬ dot_bin <:+ name))
      ∧ (f = dot_gz ∨ f = dot_lzo ∨ f = dot_tgz ∨ f = dot_tzo
          ∨ (f = [] ∧ ¬ dot_gz <:+ p ++ g ∧ ¬ dot_lzo <:+ p ++ g
              ∧ ¬ dot_tgz <:+ p ++ g ∧ ¬ dot_tzo <:+ p ++ g))
      ∧ ((g = [] ∧ (f = dot_tgz ∨ f = dot_tzo))
          ∨ (f ≠ dot_tgz ∧ f ≠ dot_tzo
              ∧ (g = dot_cpio ∨ g = dot_tar
                  ∨ (g = [] ∧ ¬ dot_cpio <:+ p ∧ ¬ dot_tar <:+ p))))
      ∧ (parse_suffix name).suffix_length = name.length - p.length
      ∧ name.take (name.length - (parse_suffix name).suffix_length) = p := by
  obtain ⟨p, g, f, w, rfl, hlen, hw, hf, hg⟩ := parse_suffix_shape name
  refine ⟨p, g, f, w, rfl, hw, hf, hg, ?_, ?_⟩
  · rw [hlen]
    simp only [List.length_append]
    omega
  · rw [hlen]
    have h : (p ++ g ++ f ++ w).length - (g.length + f.length + w.length) = p.length := by
      simp only [List.length_append]
      omega
    rw [h, List.append_assoc, List.append_assoc, List.take_left]

/-- C7: the name splits as `p ++ g ++ f ++ w` where `w` is `.bin` if the name ends with it
and empty otherwise, `f` is the one of `.gz`, `.lzo`, `.tgz`, `.tzo` that ends what is left,
or empty if none does, and `g`, empty after `.tgz` or `.tzo`, is otherwise the one of
`.cpio`, `.tar` that ends what is left, or empty if none does; `suffix_length` is the sum of
the lengths of `g`, `f`, `w`, the last `suffix_length` characters of the name are
`g ++ f ++ w`, `suffix_length` is at most the length of the name, and it is 0 when no token
matched. -/
theorem parse_suffix_suffix_length_tokens (name : List Char) :
    ∃ p g f w : List Char, name = p ++ g ++ f ++ w
      ∧ (w = dot_bin ∨ (w = [] ∧ ¬ dot_bin <:+ name))
      ∧ (f = dot_gz ∨ f = dot_lzo ∨ f = dot_tgz ∨ f = dot_tzo
          ∨ (f = [] ∧ ¬ dot_gz <:+ p ++ g ∧ ¬ dot_lzo <:+ p ++ g
              ∧ ¬ dot_tgz <:+ p ++ g ∧ ¬ dot_tzo <:+ p ++ g))
      ∧ ((g = [] ∧ (f = dot_tgz ∨ f = dot_tzo))
          ∨ (f ≠ dot_tgz ∧ f ≠ dot_tzo
              ∧ (g = dot_cpio ∨ g = dot_tar
                  ∨ (g = [] ∧ ¬ dot_cpio <:+ p ∧ ¬ dot_tar <:+ p))))
      ∧ (parse_suffix name).suffix_length = g.length + f.length + w.length
      ∧ name.drop (name.length - (parse_suffix name).suffix_length) = g ++ f ++ w
      ∧ (parse_suffix name).suffix_length ≤ name.length
      ∧ (g = [] ∧ f = [] ∧ w = [] → (parse_suffix name).suffix_length = 0) := by
  obtain ⟨p, g, f, w, rfl, hlen, hw, hf, hg⟩ := parse_suffix_shape name
  refine ⟨p, g, f, w, rfl, hw, hf, hg, hlen, ?_, ?_, ?_⟩
  · rw [hlen]
    have h : (p ++ g ++ f ++ w).length - (g.length + f.length + w.length) = p.length := by
      simp only [List.length_append]
      omega
    rw [h, List.append_assoc, List.append_assoc, List.drop_left, List.append_assoc]
  · rw [hlen]
    simp only [List.length_append]
    omega
  · rintro ⟨rfl, rfl, rfl⟩
    rw [hlen]
    rfl

/-! ## Theorems on `new_archive` -/

theorem new_archive_open_result (fuel : Nat) (w : World) (format : Format)
    (output : List Char) (archive : Archive) (trace : List Call) :
    (new_archive_open fuel w format output archive trace).map Prod.fst
      ≠ some NewArchiveResult.assertion_failed := by
  unfold new_archive_open
  by_cases hs : format.self_extractable = true
  · rw [if_pos hs]
    cases copy_self_exe fuel w with
    | none => simp
    | some r =>
      obtain ⟨fd, copied⟩ := r
      by_cases hfd : fd < 0
      · simp [hfd]
      · by_cases ho : (w.archive_write_open_fd != ARCHIVE_OK) = true
        · simp [hfd, ho]
        · simp [hfd, ho]
  · rw [if_neg hs]
    by_cases ho : (w.archive_write_open_filename != ARCHIVE_OK) = true
    · simp [ho]
    · simp [ho]

theorem new_archive_set_options_result (fuel : Nat) (w : World) (format : Format)
    (output : List Char) (archive : Archive) (trace : List Call) :
    (new_archive_set_options fuel w format output archive trace).map Prod.fst
      ≠ some NewArchiveResult.assertion_failed := by
  simp only [new_archive_set_options]
  split
  · exact new_archive_open_result _ _ _ _ _ _
  · split_ifs
    · simp
    · exact new_archive_open_result _ _ _ _ _ _

theorem new_archive_add_filter_result (fuel : Nat) (w : World) (format : Format)
    (output : List Char) (archive : Archive) (trace : List Call) :
    (new_archive_add_filter fuel w format output archive trace).map Prod.fst
      ≠ some NewArchiveResult.assertion_failed := by
  simp only [new_archive_add_filter]
  split
  · exact new_archive_set_options_result _ _ _ _ _ _
  · split_ifs
    · simp
    · exact new_archive_set_options_result _ _ _ _ _ _

theorem new_archive_resolver_result (fuel : Nat) (w : World) (format : Format)
    (output : List Char) (archive : Archive) (trace : List Call) :
    (new_archive_resolver fuel w format output archive trace).map Prod.fst
      ≠ some NewArchiveResult.assertion_failed := by
  simp only [new_archive_resolver]
  split_ifs <;> exact new_archive_add_filter_result _ _ _ _ _ _

/-- C5: for every name, `parse_suffix` completes with `set_format` holding the cpio or the
gnutar setter, and no call of `new_archive`, whatever the environment answers, ends on a
failure of the assertion `format.set_format != NULL`. -/
theorem parse_suffix_assigns_set_format (fuel : Nat) (w : World) (name : List Char) :
    ((parse_suffix name).format.set_format
          = some FormatSetter.archive_write_set_format_cpio
        ∨ (parse_suffix name).format.set_format
          = some FormatSetter.archive_write_set_format_gnutar)
      ∧ (new_archive fuel w name).map Prod.fst ≠ some NewArchiveResult.assertion_failed := by
  refine ⟨parse_suffix_set_format name, ?_⟩
  have hset := parse_suffix_set_format name
  simp only [new_archive]
  split_ifs
  · simp
  · simp
  · split
    · rename_i h
      rw [h] at hset
      simp at hset
    · split_ifs
      · simp
      · have h := new_archive_resolver_result fuel w (parse_suffix name).format name
          { handle := some (), hardlink_resolver := none, fd := -1, offset := 0 }
          ((parse_suffix name).trace ++ [Call.talloc_zero] ++ [Call.archive_write_new]
            ++ [Call.set_format ‹_›])
        revert h
        split <;> simp_all

/-! ## Theorems on `finalize_archive` -/

/-- C10 fails on the code: when `archive_write_close` reports a failure (here
`ARCHIVE_FATAL`) on an archive with a usable handle, `finalize_archive` returns -1 right
after the close, and `archive_write_free` is not called. -/
theorem finalize_archive_close_failure :
    finalize_archive close_fails_world (some usable_archive)
        = (-1, [Call.archive_entry_linkresolver_free, Call.archive_write_close])
      ∧ Call.archive_write_free ∉ (finalize_archive close_fails_world (some usable_archive)).2 := by
  decide

/-! ## Theorems on `archive` -/

/-- C9: when the entry is a symbolic link once the hardlinks were resolved, and `readlink`
returns `PATH_MAX` or more, or fails, `archive` returns -1 and `archive_write_header` is not
called. -/
theorem archive_symlink_unreadable (fuel : Nat) (w : World) (a : Archive) (path : List Char)
    (alternate_path : Option (List Char)) (statl : Stat)
    (htype : archive_entry_filetype (archive_resolved_entry w a path alternate_path statl)
      = AE_IFLNK)
    (hlink : PATH_MAX ≤ w.readlink ∨ w.readlink < 0) :
    ∃ trace : List Call, archive fuel w (some a) path alternate_path statl = some (-1, trace)
      ∧ Call.archive_write_header ∉ trace := by
  unfold archive
  by_cases hh : a.handle.isNone = true
  · exact ⟨[], by simp [hh], by simp⟩
  · by_cases hn : w.archive_entry_new = true
    · have hstatus : ((if w.readlink ≥ PATH_MAX then (-1 : Int) else w.readlink) < 0) := by
        rcases hlink with h | h
        · rw [if_pos h]; decide
        · by_cases h2 : w.readlink ≥ PATH_MAX
          · rw [if_pos h2]; decide
          · rw [if_neg h2]; exact h
      by_cases hr : a.hardlink_resolver.isSome = true
      · refine ⟨_, by simp [hh, hn, htype, hstatus, hr]; rfl, ?_⟩
        simp [archive_end]
      · refine ⟨_, by simp [hh, hn, htype, hstatus, hr]; rfl, ?_⟩
        simp [archive_end]
    · refine ⟨_, by simp [hh, hn]; rfl, ?_⟩
      simp [archive_end]

/-- Witness for C9: a link whose target fills the whole buffer. -/
theorem archive_symlink_unreadable_witness :
    archive_entry_filetype (archive_resolved_entry long_link_world usable_archive path_f none
        link_stat) = AE_IFLNK
      ∧ (PATH_MAX ≤ long_link_world.readlink ∨ long_link_world.readlink < 0)
      ∧ ∃ trace : List Call,
          archive 0 long_link_world (some usable_archive) path_f none link_stat
            = some (-1, trace)
          ∧ Call.archive_write_header ∉ trace :=
  ⟨by decide, by decide,
    archive_symlink_unreadable 0 long_link_world usable_archive path_f none link_stat
      (by decide) (by decide)⟩

theorem written_data_append (t1 t2 : List Call) :
    written_data (t1 ++ t2) = written_data t1 ++ written_data t2 := by
  induction t1 with
  | nil => rfl
  | cons c t ih => cases c <;> simp [written_data, ih]

theorem written_data_copy_calls (buffers : List (List Nat)) :
    written_data (copy_calls buffers) = buffers := by
  induction buffers with
  | nil => rfl
  | cons b bs ih =>
    have h : copy_calls (b :: bs)
        = [Call.read_path, Call.archive_write_data b] ++ copy_calls bs := by
      simp [copy_calls]
    rw [h, written_data_append, ih]
    rfl

theorem count_read_path_copy_calls (buffers : List (List Nat)) :
    (copy_calls buffers).count Call.read_path = buffers.length := by
  induction buffers with
  | nil => rfl
  | cons b bs ih =>
    have h : copy_calls (b :: bs)
        = [Call.read_path, Call.archive_write_data b] ++ copy_calls bs := by
      simp [copy_calls]
    rw [h, List.count_append, ih]
    simp [List.count_cons]
    omega

theorem to_size_t_of_length (n : Nat) (h : n < 2 ^ 64) : to_size_t (n : Int) = n := by
  unfold to_size_t
  have h2 : ((n : Int) % 2 ^ 64) = n := by
    apply Int.emod_eq_of_lt <;> omega
  rw [h2]
  rfl

theorem to_size_t_short (ret : Int) (n : Nat) (h1 : -(2 ^ 63) ≤ ret) (h2 : ret < n)
    (h3 : n ≤ 4096) : to_size_t (n : Int) ≠ to_size_t ret := by
  rw [to_size_t_of_length n (by omega)]
  unfold to_size_t
  omega

theorem copy_calls_drop (chunks : List (List Nat)) (k : Nat) (hk : k < chunks.length) :
    copy_calls (chunks.drop k)
      = [Call.read_path, Call.archive_write_data chunks[k]] ++ copy_calls (chunks.drop (k + 1)) := by
  rw [List.drop_eq_getElem_cons hk]
  rfl

/-- The copy loop when every buffer is accepted in full. -/
theorem archive_copy_accepted (w : World) (chunks : List (List Nat))
    (hpos : ∀ c ∈ chunks, 1 ≤ c.length)
    (hreads : ∀ k (hk : k < chunks.length), w.read_path k = some chunks[k])
    (heof : w.read_path chunks.length = some [])
    (hacc : ∀ k (hk : k < chunks.length),
      w.archive_write_data k chunks[k] = (chunks[k].length : Int))
    (hlast : w.archive_write_data chunks.length [] = 0) :
    ∀ (n k fuel : Nat) (trace : List Call), k + n = chunks.length → n < fuel →
      archive_copy w fuel k trace
        = some (0, trace ++ copy_calls (chunks.drop k)
            ++ [Call.read_path, Call.archive_write_data []]) := by
  intro n
  induction n with
  | zero =>
    intro k fuel trace hk hf
    obtain ⟨f, rfl⟩ : ∃ f, fuel = f + 1 := ⟨fuel - 1, by omega⟩
    have hkl : k = chunks.length := by omega
    subst hkl
    simp [archive_copy, heof, hlast, copy_calls]
  | succ n ih =>
    intro k fuel trace hk hf
    obtain ⟨f, rfl⟩ : ∃ f, fuel = f + 1 := ⟨fuel - 1, by omega⟩
    have hk1 : k < chunks.length := by omega
    have hp : 1 ≤ chunks[k].length := hpos _ (List.getElem_mem _)
    have hgt : (chunks[k].length : Int) > 0 := by omega
    unfold archive_copy
    rw [hreads k hk1]
    simp only [hacc k hk1, bne_self_eq_false, Bool.false_eq_true, if_false, if_pos hgt]
    rw [ih (k + 1) f _ (by omega) (by omega), copy_calls_drop chunks k hk1]
    simp

theorem copy_calls_take_drop (chunks : List (List Nat)) (j k : Nat) (hj : j < chunks.length)
    (hk : k ≤ j) :
    copy_calls ((chunks.take (j + 1)).drop k)
      = [Call.read_path, Call.archive_write_data (chunks[k])]
          ++ copy_calls ((chunks.take (j + 1)).drop (k + 1)) := by
  have hlen : k < (chunks.take (j + 1)).length := by
    rw [List.length_take]
    omega
  rw [List.drop_eq_getElem_cons hlen, List.getElem_take]
  rfl

/-- The copy loop when the engine accepts in full the buffers before the `j`-th and fewer
bytes than provided of the `j`-th. -/
theorem archive_copy_short (w : World) (chunks : List (List Nat)) (j : Nat)
    (hj : j < chunks.length)
    (hpos : ∀ c ∈ chunks, 1 ≤ c.length) (hle : ∀ c ∈ chunks, c.length ≤ 4096)
    (hreads : ∀ k (hk : k < chunks.length), w.read_path k = some chunks[k])
    (hacc : ∀ k (hk : k < chunks.length), k < j →
      w.archive_write_data k chunks[k] = (chunks[k].length : Int))
    (hmin : -(2 ^ 63) ≤ w.archive_write_data j chunks[j])
    (hshort : w.archive_write_data j chunks[j] < (chunks[j].length : Int)) :
    ∀ (n k fuel : Nat) (trace : List Call), k + n = j → n < fuel →
      archive_copy w fuel k trace
        = some (-1, trace ++ copy_calls ((chunks.take (j + 1)).drop k)
            ++ [Call.notice Severity.WARNING Origin.INTERNAL
                  "can't archive '%s' content: %s"]) := by
  intro n
  induction n with
  | zero =>
    intro k fuel trace hk hf
    obtain ⟨f, rfl⟩ : ∃ f, fuel = f + 1 := ⟨fuel - 1, by omega⟩
    have hkj : k = j := by omega
    subst hkj
    have hne := to_size_t_short _ _ hmin hshort (hle _ (List.getElem_mem _))
    have hb : (to_size_t (chunks[k].length : Int)
        != to_size_t (w.archive_write_data k chunks[k])) = true := by
      simpa using hne
    have hd : List.drop (k + 1) (List.take (k + 1) chunks) = [] := by
      apply List.drop_eq_nil_of_le
      rw [List.length_take]
      omega
    unfold archive_copy
    rw [hreads k hj]
    simp only [hb, if_true]
    rw [copy_calls_take_drop chunks k k hj (le_refl k), hd]
    simp [copy_calls]
  | succ n ih =>
    intro k fuel trace hk hf
    obtain ⟨f, rfl⟩ : ∃ f, fuel = f + 1 := ⟨fuel - 1, by omega⟩
    have hk1 : k < chunks.length := by omega
    have hp : 1 ≤ chunks[k].length := hpos _ (List.getElem_mem _)
    have hgt : (chunks[k].length : Int) > 0 := by omega
    unfold archive_copy
    rw [hreads k hk1]
    simp only [hacc k hk1 (by omega), bne_self_eq_false, Bool.false_eq_true, if_false,
      if_pos hgt]
    rw [ih (k + 1) f _ (by omega) (by omega), copy_calls_take_drop chunks j k hj (by omega)]
    simp

theorem written_data_archive_prologue (a : Archive) (path : List Char)
    (alternate_path : Option (List Char)) :
    written_data (archive_prologue a path alternate_path) = [] := by
  unfold archive_prologue
  split_ifs <;> rfl

theorem count_read_path_archive_prologue (a : Archive) (path : List Char)
    (alternate_path : Option (List Char)) :
    (archive_prologue a path alternate_path).count Call.read_path = 0 := by
  unfold archive_prologue
  split_ifs <;> simp [List.count_cons]

/-- On a regular file with content whose header is written and whose source is opened,
`archive` is its copy loop between the prologue and the code at `end`. -/
theorem archive_regular_file (fuel : Nat) (w : World) (a : Archive) (path : List Char)
    (alternate_path : Option (List Char)) (statl : Stat)
    (hhandle : a.handle.isSome = true) (hnew : w.archive_entry_new = true)
    (htype : archive_entry_filetype (archive_resolved_entry w a path alternate_path statl)
      = AE_IFREG)
    (hsize : to_size_t (archive_entry_size (archive_resolved_entry w a path alternate_path statl))
      ≠ 0)
    (hheader : w.archive_write_header = ARCHIVE_OK) (hopen : 0 ≤ w.open_path) :
    archive fuel w (some a) path alternate_path statl
      = match archive_copy w fuel 0 (archive_prologue a path alternate_path) with
        | none => none
        | some (status, trace) => some (archive_end true true status trace) := by
  have hh : a.handle.isNone = false := by
    cases h : a.handle <;> simp_all
  have hlnk : (AE_IFREG == AE_IFLNK) = false := by decide
  have hreg : (AE_IFREG != AE_IFREG) = false := by decide
  have hfd : ¬ w.open_path < 0 := by omega
  unfold archive archive_prologue
  by_cases hr : a.hardlink_resolver.isSome = true
  · simp [hh, hnew, htype, hsize, hheader, hfd, hr, hlnk, hreg]
  · simp [hh, hnew, htype, hsize, hheader, hfd, hr, hlnk, hreg]

/-- C8, as stated, fails: on a regular file of three bytes whose header is written and whose
source is opened, where the reads return the chunk 1, 2, 3 and then a zero-length read and
the engine accepts that chunk in full, `archive` still hands the engine the empty buffer of
the zero-length read; when the engine answers -30 to it, `archive` returns -1 (here with
fuel 2), and with no fuel does it return 0. -/
theorem archive_empty_write_rejected :
    archive_entry_filetype
          (archive_resolved_entry empty_write_fails_world usable_archive path_f none file_stat)
        = AE_IFREG
      ∧ to_size_t (archive_entry_size
          (archive_resolved_entry empty_write_fails_world usable_archive path_f none file_stat))
        ≠ 0
      ∧ empty_write_fails_world.archive_write_header = ARCHIVE_OK
      ∧ 0 ≤ empty_write_fails_world.open_path
      ∧ empty_write_fails_world.read_path 0 = some [1, 2, 3]
      ∧ empty_write_fails_world.read_path 1 = some []
      ∧ empty_write_fails_world.archive_write_data 0 [1, 2, 3] = 3
      ∧ archive 2 empty_write_fails_world (some usable_archive) path_f none file_stat
        = some (-1,
            [Call.archive_entry_new, Call.archive_entry_set_pathname path_f,
              Call.archive_entry_copy_stat, Call.archive_entry_linkify,
              Call.archive_write_header, Call.open_path,
              Call.read_path, Call.archive_write_data [1, 2, 3],
              Call.read_path, Call.archive_write_data [],
              Call.notice Severity.WARNING Origin.INTERNAL "can't archive '%s' content: %s",
              Call.close_path, Call.archive_entry_free])
      ∧ ∀ fuel : Nat,
          (archive fuel empty_write_fails_world (some usable_archive) path_f none
            file_stat).map Prod.fst ≠ some 0 := by
  refine ⟨by decide, by decide, by decide, by decide, by decide, by decide, by decide,
    by decide, ?_⟩
  intro fuel
  rcases fuel with _ | _ | n
  · decide
  · decide
  · have h : archive (n + 2) empty_write_fails_world (some usable_archive) path_f none file_stat
        = archive 2 empty_write_fails_world (some usable_archive) path_f none file_stat := by
      have hloop : ∀ trace : List Call,
          archive_copy empty_write_fails_world (n + 2) 0 trace
            = archive_copy empty_write_fails_world 2 0 trace := by
        intro trace
        simp [archive_copy, empty_write_fails_world, three_bytes_world, quiet_world, to_size_t]
      simp only [archive, hloop]
    rw [h]
    decide

/-- C8, amended: take a call of `archive` on an entry that, once the hardlinks were
resolved, is a regular file of non-zero size, whose header is written and whose source is
opened, and let the reads return the chunks `chunks[0]`, ..., each of 1 to 4096 bytes, then
a zero-length read.  If the engine accepts every chunk in full and answers 0 to the empty
buffer it is handed after the zero-length read, then with enough fuel `archive` returns 0
and the non-empty buffers handed to the engine are exactly the chunks, in order.  If the
engine accepts in full the chunks before the `j`-th and fewer bytes than provided of the
`j`-th (any value of `ssize_t` below the size of the chunk), then with enough fuel `archive`
returns -1, the buffers handed to the engine are the chunks up to the `j`-th and there are
`j + 1` reads: no later chunk is read or written. -/
theorem archive_streams_chunks (w : World) (a : Archive) (path : List Char)
    (alternate_path : Option (List Char)) (statl : Stat) (chunks : List (List Nat))
    (hhandle : a.handle.isSome = true) (hnew : w.archive_entry_new = true)
    (htype : archive_entry_filetype (archive_resolved_entry w a path alternate_path statl)
      = AE_IFREG)
    (hsize : to_size_t (archive_entry_size (archive_resolved_entry w a path alternate_path statl))
      ≠ 0)
    (hheader : w.archive_write_header = ARCHIVE_OK) (hopen : 0 ≤ w.open_path)
    (hchunks : ∀ c ∈ chunks, 1 ≤ c.length ∧ c.length ≤ 4096)
    (hreads : ∀ k (hk : k < chunks.length), w.read_path k = some chunks[k])
    (heof : w.read_path chunks.length = some []) :
    ((∀ k (hk : k < chunks.length),
          w.archive_write_data k chunks[k] = (chunks[k].length : Int)) →
        w.archive_write_data chunks.length [] = 0 →
        ∀ fuel : Nat, chunks.length < fuel →
          ∃ trace : List Call,
            archive fuel w (some a) path alternate_path statl = some (0, trace)
              ∧ (written_data trace).filter (fun buffer => buffer ≠ []) = chunks
              ∧ written_data trace = chunks ++ [[]])
      ∧ (∀ j (hj : j < chunks.length),
          (∀ k (hk : k < chunks.length), k < j →
            w.archive_write_data k chunks[k] = (chunks[k].length : Int)) →
          -(2 ^ 63) ≤ w.archive_write_data j chunks[j] →
          w.archive_write_data j chunks[j] < (chunks[j].length : Int) →
          ∀ fuel : Nat, j < fuel →
            ∃ trace : List Call,
              archive fuel w (some a) path alternate_path statl = some (-1, trace)
                ∧ written_data trace = chunks.take (j + 1)
                ∧ trace.count Call.read_path = j + 1) := by
  have hpos : ∀ c ∈ chunks, 1 ≤ c.length := fun c hc => (hchunks c hc).1
  have hle : ∀ c ∈ chunks, c.length ≤ 4096 := fun c hc => (hchunks c hc).2
  constructor
  · intro hacc hlast fuel hfuel
    have hloop := archive_copy_accepted w chunks hpos hreads heof hacc hlast
      chunks.length 0 fuel (archive_prologue a path alternate_path) (by omega) hfuel
    have hwritten : written_data (archive_prologue a path alternate_path
        ++ copy_calls chunks ++ [Call.read_path, Call.archive_write_data []]
        ++ [Call.close_path] ++ [Call.archive_entry_free]) = chunks ++ [[]] := by
      simp only [written_data_append, written_data_archive_prologue, written_data_copy_calls]
      simp [written_data]
    refine ⟨_, ?_, ?_, hwritten⟩
    · rw [archive_regular_file fuel w a path alternate_path statl hhandle hnew htype hsize
        hheader hopen, hloop]
      simp [archive_end]
    · rw [hwritten, List.filter_append]
      have hall : List.filter (fun buffer => decide (buffer ≠ [])) chunks = chunks := by
        apply List.filter_eq_self.mpr
        intro c hc
        have := hpos c hc
        have hne : c ≠ [] := by
          intro h
          rw [h] at this
          simp at this
        simpa using hne
      rw [hall]
      simp
  · intro j hj hacc hmin hshort fuel hfuel
    have hloop := archive_copy_short w chunks j hj hpos hle hreads hacc hmin hshort
      j 0 fuel (archive_prologue a path alternate_path) (by omega) hfuel
    refine ⟨archive_prologue a path alternate_path ++ copy_calls (chunks.take (j + 1))
        ++ [Call.notice Severity.WARNING Origin.INTERNAL "can't archive '%s' content: %s"]
        ++ [Call.close_path] ++ [Call.archive_entry_free], ?_, ?_, ?_⟩
    · rw [archive_regular_file fuel w a path alternate_path statl hhandle hnew htype hsize
        hheader hopen, hloop]
      simp [archive_end]
    · simp only [written_data_append, written_data_archive_prologue, written_data_copy_calls]
      simp [written_data]
    · simp only [List.count_append, count_read_path_archive_prologue,
        count_read_path_copy_calls, List.length_take]
      simp [List.count_cons]
      omega

/-- Witness for C8, amended: a file of three bytes read in one chunk, with an engine that accepts
all of it, and with one that accepts two bytes of it. -/
theorem archive_streams_chunks_witness :
    (∃ trace : List Call,
        archive 2 three_bytes_world (some usable_archive) path_f none file_stat
            = some (0, trace)
          ∧ (written_data trace).filter (fun buffer => buffer ≠ []) = [[1, 2, 3]]
          ∧ written_data trace = [[1, 2, 3]] ++ [[]])
      ∧ (∃ trace : List Call,
          archive 1 short_write_world (some usable_archive) path_f none file_stat
              = some (-1, trace)
            ∧ written_data trace = [[1, 2, 3]].take (0 + 1)
            ∧ trace.count Call.read_path = 0 + 1) :=
  ⟨(archive_streams_chunks three_bytes_world usable_archive path_f none file_stat [[1, 2, 3]]
      (by decide) (by decide) (by decide) (by decide) (by decide) (by decide) (by decide)
      (by decide) (by decide)).1 (by decide) (by decide) 2 (by decide),
    (archive_streams_chunks short_write_world usable_archive path_f none file_stat [[1, 2, 3]]
      (by decide) (by decide) (by decide) (by decide) (by decide) (by decide) (by decide)
      (by decide) (by decide)).2 0 (by decide) (by decide) (by decide) (by decide) 1
      (by decide)⟩

end Care
